import Mathlib

/-!
Verification of the scenv layered-configuration and variable-resolution engine.

The definitions below are a shallow embedding of the TypeScript sources:
  - packages/scenv/src/config.ts   (latest evolution: ScenvConfig, mergeContexts, loadConfig)
  - packages/scenv/src/context.ts  (latest evolution: getContext, getMergedContextValues,
                                    writeToContext, in-memory context)
  - packages/scenv/src/variable.ts (latest evolution: resolveContextReference, resolveRaw,
                                    getResolvedValue, get, safeGet, save)

JavaScript objects are modelled as association lists with unique keys (JSON.parse
produces unique keys, last duplicate winning, and all operations here preserve
uniqueness).  `Option` models optional / possibly-undefined fields.  Filesystem
reads are modelled by passing the parsed state explicitly; a context file that is
missing or unreadable is absent from the state, matching the code paths that
treat both as the empty object.
-/

namespace Scenv

/-- A JSON value as stored in a context file.  Only the distinctions the code
observes are modelled: string values participate in resolution, all other JSON
values are kept opaque (preserved on write, dropped on string-filtered read). -/
inductive Jval where
  | str : String → Jval
  | other : Jval
deriving DecidableEq, Repr

/-- A parsed JSON object: association list with unique keys (JS object). -/
abbrev Jobj := List (String × Jval)

/-- First-match lookup in an association list (JS property read). -/
def alookup {α : Type} : List (String × α) → String → Option α
  | [], _ => none
  | p :: t, k => if p.1 = k then some p.2 else alookup t k

/-- JS property assignment `obj[k] = v`: an existing key keeps its position and
gets the new value, a new key is appended. -/
def aset {α : Type} : List (String × α) → String → α → List (String × α)
  | [], k, v => [(k, v)]
  | p :: t, k, v => if p.1 = k then (k, v) :: t else p :: aset t k v

/-- Keep only the string-valued entries of a parsed JSON object
(`if (typeof v === "string") out[k] = v` in context.ts). -/
def strEntries : Jobj → List (String × String)
  | [] => []
  | (k, Jval.str s) :: t => (k, s) :: strEntries t
  | (_, Jval.other) :: t => strEntries t

/-- When to prompt (config.ts `PromptMode`). -/
inductive PromptMode where
  | always | never | fallback | noEnv
deriving DecidableEq, Repr

/-- Post-prompt save policy (config.ts `SavePromptMode`). -/
inductive SaveMode where
  | always | never | ask
deriving DecidableEq, Repr

/-- The (partial) scenv configuration, config.ts `ScenvConfig`.  Every field is
optional exactly as in the interface; `none` is an absent property. -/
structure ScenvConfig where
  context : Option (List String) := none
  addContext : Option (List String) := none
  prompt : Option PromptMode := none
  ignoreEnv : Option Bool := none
  ignoreContext : Option Bool := none
  set : Option (List (String × String)) := none
  shouldSavePrompt : Option SaveMode := none
  saveContextTo : Option String := none
  contextDir : Option String := none
  root : Option String := none
  logLevel : Option String := none
deriving DecidableEq, Repr

/-- JS truthiness of an optional boolean config flag
(`if (config.ignoreEnv) ...`). -/
def truthy (b : Option Bool) : Bool :=
  b = some true

/-- config.ts `mergeContexts(fileConfig, envConfig, progConfig)`. -/
def mergeContexts (fileConfig envConfig progConfig : ScenvConfig) : List String :=
  let fromFile := (fileConfig.context.orElse fun _ => fileConfig.addContext).getD []
  let fromEnvAdd := envConfig.addContext.getD []
  let fromProgAdd := progConfig.addContext.getD []
  match progConfig.context.orElse fun _ => envConfig.context with
  | some replace => replace
  | none =>
    (fromEnvAdd ++ fromProgAdd).foldl
      (fun base c => if c ∈ base then base else base ++ [c]) fromFile

/-- JS object spread of two partial configs: a property of `hi` wins when
present, otherwise the property of `lo` is used. -/
def spread (lo hi : ScenvConfig) : ScenvConfig where
  context := hi.context.orElse fun _ => lo.context
  addContext := hi.addContext.orElse fun _ => lo.addContext
  prompt := hi.prompt.orElse fun _ => lo.prompt
  ignoreEnv := hi.ignoreEnv.orElse fun _ => lo.ignoreEnv
  ignoreContext := hi.ignoreContext.orElse fun _ => lo.ignoreContext
  set := hi.set.orElse fun _ => lo.set
  shouldSavePrompt := hi.shouldSavePrompt.orElse fun _ => lo.shouldSavePrompt
  saveContextTo := hi.saveContextTo.orElse fun _ => lo.saveContextTo
  contextDir := hi.contextDir.orElse fun _ => lo.contextDir
  root := hi.root.orElse fun _ => lo.root
  logLevel := hi.logLevel.orElse fun _ => lo.logLevel

/-- config.ts `loadConfig`.  The filesystem interaction is abstracted: the
caller passes the parse result of the discovered config file (`fileConfig`,
empty when no config dir was found or the file was malformed), whether a config
directory was found and its path (`configDir`), and the starting directory. -/
def loadConfig (fileConfig envConfig progConfig : ScenvConfig)
    (configDir : Option String) (startDir : String) : ScenvConfig :=
  let fileC := match configDir with
    | some _ => fileConfig
    | none => {}
  let merged := spread (spread fileC envConfig) progConfig
  let merged := { merged with
    context := some (mergeContexts fileC envConfig progConfig)
    addContext := none }
  -- `if (configDir && !merged.root) merged.root = configDir; else if (!merged.root) merged.root = startDir`
  let rootFalsy := merged.root = none ∨ merged.root = some ""
  match configDir with
  | some d => if rootFalsy then { merged with root := some d } else merged
  | none => if rootFalsy then { merged with root := some startDir } else merged

end Scenv

namespace Scenv

/-- CLAIM C2 counterexample input: empty file layer. -/
def c2File : ScenvConfig := {}

/-- CLAIM C2 counterexample input: environment layer supplying a replace list. -/
def c2Env : ScenvConfig := { context := some ["a"] }

/-- CLAIM C2 counterexample input: programmatic layer supplying only an add list. -/
def c2Prog : ScenvConfig := { addContext := some ["b"] }

/-- The process state touched by the context store (context.ts): the parsed
contents of the discoverable context files, keyed by context name, and the
in-memory context.  A name absent from `files` models a context whose file is
missing or unreadable (both code paths produce the empty object on read). -/
structure CtxState where
  files : List (String × Jobj)
  inMemory : List (String × String)
deriving DecidableEq, Repr

/-- context.ts `getContext(contextName)`: load one context file, keeping only
string-valued entries; empty when the file is not found or invalid. -/
def getContext (st : CtxState) (contextName : String) : List (String × String) :=
  match alookup st.files contextName with
  | some obj => strEntries obj
  | none => []

/-- context.ts `getMergedContextValues()`: load each configured context in
order and overlay its string entries; empty when `ignoreContext` is truthy.
A context name with no discoverable file is skipped. -/
def getMergedContextValues (cfg : ScenvConfig) (st : CtxState) :
    List (String × String) :=
  if truthy cfg.ignoreContext then []
  else
    (cfg.context.getD []).foldl
      (fun out contextName =>
        match alookup st.files contextName with
        | none => out
        | some obj => (strEntries obj).foldl (fun out p => aset out p.1 p.2) out)
      []

/-- context.ts `writeToContext(contextName, key, value)`: read and parse the
existing file (missing or unparsable becomes the empty object), set the key,
and write the result back.  Only `files` changes; the in-memory context is not
touched by this function. -/
def writeToContext (st : CtxState) (contextName key value : String) : CtxState :=
  let data : Jobj := (alookup st.files contextName).getD []
  { st with files := aset st.files contextName (aset data key (Jval.str value)) }

/-- context.ts `setInMemoryContext(key, value)`: set a key in the in-memory
context layer. -/
def setInMemoryContext (st : CtxState) (key value : String) : CtxState :=
  { st with inMemory := aset st.inMemory key value }

/-- A JavaScript line terminator: the characters `.` does not match in a
regular expression without the `s` flag. -/
def isLineTerm (c : Char) : Bool :=
  c = '\n' || c = '\r' || c.toNat = 0x2028 || c.toNat = 0x2029

/-- variable.ts `CONTEXT_REF_REGEX = /^@([^:]+):(.+)$/` applied to a whole
string (computed over the character list).  `[^:]+` cannot cross a colon, so
the split is forced at the first colon; the key group uses `.`, which excludes
line terminators, and both groups must be nonempty.  Returns the captured
(context, key) on a match. -/
def contextRefMatch (raw : String) : Option (String × String) :=
  match raw.data with
  | '@' :: rest =>
    let ctxChars := rest.takeWhile (fun ch => ch ≠ ':')
    if ctxChars.isEmpty then none
    else
      match rest.drop ctxChars.length with
      | ':' :: keyChars =>
        if keyChars.isEmpty then none
        else if keyChars.any isLineTerm then none
        else some (String.mk ctxChars, String.mk keyChars)
      | _ => none
  | _ => none

/-- variable.ts `MAX_CONTEXT_REF_DEPTH`. -/
def MAX_CONTEXT_REF_DEPTH : Nat := 10

/-- The error thrown when reference resolution reaches the depth bound. -/
def depthErrMsg : String :=
  "Context reference resolution exceeded max depth (10): possible circular reference"

/-- The error thrown for a reference whose key (or whole context) is missing:
one message when the loaded context is nonempty, another when it is empty
(`Object.keys(ctx).length > 0` in the source). -/
def brokenRefMsg (hasContext : Bool) (contextName refKey : String) : String :=
  "Context reference @" ++ contextName ++ ":" ++ refKey ++
    (if hasContext then
      " could not be resolved: key \"" ++ refKey ++ "\" is not defined in context \"" ++
        contextName ++ "\"."
    else
      " could not be resolved: context \"" ++ contextName ++ "\" not found (no " ++
        contextName ++ ".context.json).")

/-- variable.ts `resolveContextReference(raw, depth)`, written with the
remaining depth `MAX_CONTEXT_REF_DEPTH - depth` as fuel: the source checks
`depth >= MAX_CONTEXT_REF_DEPTH` on entry (fuel `0` here) before matching, and
recurses with `depth + 1` (fuel minus one) on the substituted string. -/
def resolveRefFuel (st : CtxState) : Nat → String → Except String String
  | 0, _ => Except.error depthErrMsg
  | Nat.succ fuel, raw =>
    match contextRefMatch raw with
    | none => Except.ok raw
    | some (contextName, refKey) =>
      let ctx := getContext st contextName
      match alookup ctx refKey with
      | none => Except.error (brokenRefMsg (!ctx.isEmpty) contextName refKey)
      | some resolved => resolveRefFuel st fuel resolved

/-- variable.ts `resolveContextReference(raw)` at the default depth 0. -/
def resolveContextReference (st : CtxState) (raw : String) : Except String String :=
  resolveRefFuel st MAX_CONTEXT_REF_DEPTH raw

/-- One substitution step of reference resolution: the looked-up value when the
string matches the cross-context pattern and the lookup succeeds. -/
def stepRef (st : CtxState) (raw : String) : Option String :=
  match contextRefMatch raw with
  | none => none
  | some (contextName, refKey) => alookup (getContext st contextName) refKey

/-- `n` consecutive successful substitution steps starting from `raw`. -/
def stepsRef (st : CtxState) : Nat → String → Option String
  | 0, raw => some raw
  | Nat.succ n, raw => (stepRef st raw).bind (stepsRef st n)

/-- The process environment (`process.env`), modelled as an association list. -/
abbrev EnvMap := List (String × String)

/-- A prompt function: receives the display name and the suggested default
(possibly absent) and returns the entered value. -/
abbrev PromptFn := String → Option String → String

/-- variable.ts `ValidatorResult<T>` at `T = String`: a boolean, a success
record with optional replacement data, or a failure record with an optional
opaque error payload. -/
inductive VRes where
  | bool : Bool → VRes
  | okData : Option String → VRes
  | failErr : Option String → VRes

/-- variable.ts `normalizeValidatorResult`, with success mapped to `Except.ok`
(carrying the optional `data`) and failure to `Except.error` (carrying the
optional `error` payload). -/
def normalizeValidatorResult : VRes → Except (Option String) (Option String)
  | VRes.bool true => Except.ok none
  | VRes.bool false => Except.error none
  | VRes.okData d => Except.ok d
  | VRes.failErr e => Except.error e

/-- A variable descriptor as closed over by `scenv(name, options)`: display
name, storage key, environment key, optional default, validator, and prompt. -/
structure VarSpec where
  name : String
  key : String
  envKey : String
  defaultValue : Option String := none
  validator : Option (String → VRes) := none
  prompt : Option PromptFn := none

/-- Per-call overrides (`GetOptions`): an optional prompt and an optional
default for this call only (`defaultVal` models the `default` property). -/
structure GetOverrides where
  prompt : Option PromptFn := none
  defaultVal : Option String := none

/-- The effective callbacks together with the replies the external world would
give.  config.ts `getCallbacks()` always merges in built-in defaults, so every
callback is present; the `typeof ... !== "function"` guards in variable.ts are
therefore never taken and are not modelled. -/
structure Oracles where
  defaultPrompt : PromptFn
  askWhetherToSave : Bool
  askContext : String

/-- variable.ts `validate(value)`: pass-through without a validator, otherwise
normalize the validator's result; on success an explicitly provided `data`
replaces the value. -/
def validate (v : VarSpec) (value : String) : Except (Option String) String :=
  match v.validator with
  | none => Except.ok value
  | some f =>
    match normalizeValidatorResult (f value) with
    | Except.ok d => Except.ok (d.getD value)
    | Except.error e => Except.error e

/-- The message of the error thrown when validation fails
(`Validation failed for "name": error-or-unknown`). -/
def validationErrMsg (name : String) (e : Option String) : String :=
  "Validation failed for \"" ++ name ++ "\": " ++ e.getD "unknown"

/-- The message of the error thrown when no value and no default exist. -/
def missingValueMsg (name key : String) : String :=
  "Missing value for variable \"" ++ name ++ "\" (key: " ++ key ++ ")"

/-- `config.set?.[key]`: lookup in the explicit override map. -/
def setLookup (cfg : ScenvConfig) (key : String) : Option String :=
  cfg.set.bind (fun m => alookup m key)

/-- The environment hit of resolveRaw: the value of the variable's environment
key unless `ignoreEnv` is truthy, the variable is unset, or it is empty. -/
def envHit (cfg : ScenvConfig) (env : EnvMap) (envKey : String) : Option String :=
  if truthy cfg.ignoreEnv then none
  else
    match alookup env envKey with
    | some s => if s = "" then none else some s
    | none => none

/-- `process.env[envKey] !== undefined && process.env[envKey] !== ""`. -/
def envPresent (env : EnvMap) (envKey : String) : Bool :=
  match alookup env envKey with
  | some s => !(s = "")
  | none => false

/-- Which source produced the raw value (variable.ts `ResolveSource`). -/
inductive ResolveSource where
  | set | env | context
deriving DecidableEq, Repr

/-- variable.ts `resolveRaw()` (latest evolution): explicit override map, then
environment, then merged context, each hit passed through
`resolveContextReference`; errors of the reference resolver propagate. -/
def resolveRaw (cfg : ScenvConfig) (env : EnvMap) (st : CtxState)
    (key envKey : String) : Except String (Option String × Option ResolveSource) :=
  match setLookup cfg key with
  | some v =>
    (resolveContextReference st v).map (fun r => (some r, some ResolveSource.set))
  | none =>
    match envHit cfg env envKey with
    | some v =>
      (resolveContextReference st v).map (fun r => (some r, some ResolveSource.env))
    | none =>
      if truthy cfg.ignoreContext then Except.ok (none, none)
      else
        match alookup (getMergedContextValues cfg st) key with
        | some v =>
          (resolveContextReference st v).map
            (fun r => (some r, some ResolveSource.context))
        | none => Except.ok (none, none)

/-- variable.ts `shouldPrompt(config, hadValue, hadEnv)`. -/
def shouldPrompt (cfg : ScenvConfig) (hadValue hadEnv : Bool) : Bool :=
  match cfg.prompt.getD PromptMode.fallback with
  | PromptMode.never => false
  | PromptMode.always => true
  | PromptMode.fallback => !hadValue
  | PromptMode.noEnv => !hadEnv

/-- The record returned by `getResolvedValue`. -/
structure GetOutcome where
  value : String
  raw : Option String
  hadEnv : Bool
  wasPrompted : Bool
deriving DecidableEq, Repr

/-- The reference-expanded effective default
(`typeof effectiveDefault === "string" ? resolveContextReference(effectiveDefault) : ...`;
at `T = String` the expansion always applies when a default exists). -/
def resolveDefault (st : CtxState) : Option String → Except String (Option String)
  | none => Except.ok none
  | some d => (resolveContextReference st d).map some

/-- variable.ts `getResolvedValue(overrides)` (latest evolution).  The raw
value is resolved first; the reference-expanded default is computed next,
unconditionally, exactly as in the source; then either the prompt path or the
raw-value/default waterfall produces the value. -/
def getResolvedValue (cfg : ScenvConfig) (env : EnvMap) (st : CtxState)
    (v : VarSpec) (ov : Option GetOverrides) (orc : Oracles) :
    Except String GetOutcome :=
  match resolveRaw cfg env st v.key v.envKey with
  | Except.error e => Except.error e
  | Except.ok rs =>
    match resolveDefault st
        ((ov.bind GetOverrides.defaultVal).orElse fun _ => v.defaultValue) with
    | Except.error e => Except.error e
    | Except.ok resolvedDefault =>
      let raw := rs.1
      let hadEnv := (!truthy cfg.ignoreEnv) && envPresent env v.envKey
      if shouldPrompt cfg raw.isSome hadEnv then
        let fn := ((ov.bind GetOverrides.prompt).orElse fun _ => v.prompt).getD
          orc.defaultPrompt
        let promptedValue := fn v.name (raw.orElse fun _ => resolvedDefault)
        match resolveContextReference st promptedValue with
        | Except.error e => Except.error e
        | Except.ok value => Except.ok ⟨value, raw, hadEnv, true⟩
      else
        match raw with
        | some value => Except.ok ⟨value, raw, hadEnv, false⟩
        | none =>
          match resolvedDefault with
          | some value => Except.ok ⟨value, raw, hadEnv, false⟩
          | none => Except.error (missingValueMsg v.name v.key)

/-- The observable outcome of `get()`: the returned value, the resolution
facts, whether `onAskWhetherToSave` was invoked, the performed context write
(context name, key, value) if any, and the resulting process state. -/
structure GetResult where
  value : String
  raw : Option String
  hadEnv : Bool
  wasPrompted : Bool
  asked : Bool
  wrote : Option (String × String × String)
  state : CtxState
deriving DecidableEq, Repr

/-- variable.ts `get(options)` (latest evolution): resolve, validate, and —
only when a prompt occurred — run the post-prompt save flow with
`shouldSavePrompt ?? (prompt === "never" ? "never" : "ask")`. -/
def get (cfg : ScenvConfig) (env : EnvMap) (st : CtxState) (v : VarSpec)
    (ov : Option GetOverrides) (orc : Oracles) : Except String GetResult :=
  match getResolvedValue cfg env st v ov orc with
  | Except.error e => Except.error e
  | Except.ok o =>
    match validate v o.value with
    | Except.error e => Except.error (validationErrMsg v.name e)
    | Except.ok final =>
      if o.wasPrompted then
        let mode := cfg.shouldSavePrompt.getD
          (if cfg.prompt = some PromptMode.never then SaveMode.never else SaveMode.ask)
        if mode = SaveMode.never then
          Except.ok ⟨final, o.raw, o.hadEnv, o.wasPrompted, false, none, st⟩
        else
          let asked := mode = SaveMode.ask
          let doSave := if mode = SaveMode.ask then orc.askWhetherToSave else true
          if doSave then
            let contextNames := cfg.context.getD []
            let ctxToSave := match cfg.saveContextTo with
              | some s => if s = "ask" then orc.askContext else s
              | none => contextNames.head?.getD "default"
            Except.ok ⟨final, o.raw, o.hadEnv, o.wasPrompted, asked,
              some (ctxToSave, v.key, final), writeToContext st ctxToSave v.key final⟩
          else
            Except.ok ⟨final, o.raw, o.hadEnv, o.wasPrompted, asked, none, st⟩
      else
        Except.ok ⟨final, o.raw, o.hadEnv, false, false, none, st⟩

/-- The discriminated result of `safeGet()`. -/
inductive SafeResult where
  | success : String → SafeResult
  | failure : String → SafeResult
deriving DecidableEq, Repr

/-- variable.ts `safeGet(options)`: `get` with every thrown error captured. -/
def safeGet (cfg : ScenvConfig) (env : EnvMap) (st : CtxState) (v : VarSpec)
    (ov : Option GetOverrides) (orc : Oracles) : SafeResult :=
  match get cfg env st v ov orc with
  | Except.ok r => SafeResult.success r.value
  | Except.error e => SafeResult.failure e

/-- variable.ts `save(value?)` (latest evolution): take the given value or
re-resolve, validate, pick the destination context
(`saveContextTo`, the `onAskContext` reply for the "ask" sentinel, and the
`config.context?.[0] ?? "default"` fallback for a falsy name), and write. -/
def save (cfg : ScenvConfig) (env : EnvMap) (st : CtxState) (v : VarSpec)
    (valueArg : Option String) (orc : Oracles) : Except String CtxState :=
  match (match valueArg with
         | some x => Except.ok x
         | none => (getResolvedValue cfg env st v none orc).map GetOutcome.value :
         Except String String) with
  | Except.error e => Except.error e
  | Except.ok toSave =>
    match validate v toSave with
    | Except.error e => Except.error (validationErrMsg v.name e)
    | Except.ok data =>
      let chosen : Option String := match cfg.saveContextTo with
        | some s => if s = "ask" then some orc.askContext else some s
        | none => none
      let fallback := (cfg.context.bind List.head?).getD "default"
      let contextName := match chosen with
        | some s => if s = "" then fallback else s
        | none => fallback
      Except.ok (writeToContext st contextName v.key data)

/-- The value returned by `get()`, forgetting the effect fields. -/
def getValue (cfg : ScenvConfig) (env : EnvMap) (st : CtxState) (v : VarSpec)
    (ov : Option GetOverrides) (orc : Oracles) : Except String String :=
  (get cfg env st v ov orc).map GetResult.value

/-- CLAIM C4 witness input: a context whose key refers back to itself. -/
def c4Store : CtxState := ⟨[("c", [("k", Jval.str "@c:k")])], []⟩

/-- CLAIM C5 failing input: a set override containing an environment
reference, with the referenced environment variable set. -/
def c5Cfg : ScenvConfig :=
  { prompt := some PromptMode.never, set := some [("url", "$SOME_URL")] }

/-- CLAIM C5 failing input: the process environment. -/
def c5Env : EnvMap := [("SOME_URL", "https://from-env.example.com")]

/-- CLAIM C5 failing input: the resolved variable. -/
def c5Var : VarSpec := { name := "URL", key := "url", envKey := "URL" }

/-- CLAIM C5 failing input: callbacks (never consulted on this path). -/
def c5Orc : Oracles := ⟨fun _ d => d.getD "", false, "unused"⟩

/-- CLAIM C6 failing input: non-interactive config with no save target. -/
def c6Cfg : ScenvConfig :=
  { context := some []
    prompt := some PromptMode.never
    ignoreEnv := some true
    ignoreContext := some true }

/-- CLAIM C6 failing input: a variable with only a default. -/
def c6Var : VarSpec :=
  { name := "Memory Only"
    key := "mem_key"
    envKey := "MEM_KEY"
    defaultValue := some "mem-value" }

/-- CLAIM C6 failing input: callbacks answering yes to every save question. -/
def c6Orc : Oracles := ⟨fun _ d => d.getD "", true, "unused"⟩

/-- CLAIM C6 failing input for the prompted-get path: prompt always, ask to
save, save target a named context. -/
def c6bCfg : ScenvConfig :=
  { context := some ["c"]
    prompt := some PromptMode.always
    shouldSavePrompt := some SaveMode.ask
    saveContextTo := some "c" }

/-- CLAIM C6 failing input: the prompted variable. -/
def c6bVar : VarSpec := { name := "V", key := "k", envKey := "K" }

/-- CLAIM C6 failing input: prompt replies "x", save decision affirmative. -/
def c6bOrc : Oracles := ⟨fun _ _ => "x", true, "unused"⟩

/-- CLAIM C1 witness input: a context file populating the variable's key. -/
def c1St : CtxState := ⟨[("prod", [("api_url", Jval.str "ctxv")])], []⟩

/-- CLAIM C1 witness input: all four sources populated, prompting disabled. -/
def c1Cfg : ScenvConfig :=
  { context := some ["prod"]
    prompt := some PromptMode.never
    set := some [("api_url", "setv")] }

/-- CLAIM C1 witness input: the environment variable is set and nonempty. -/
def c1Env : EnvMap := [("API_URL", "envv")]

/-- CLAIM C1 witness input: the variable with a configured default. -/
def c1Var : VarSpec :=
  { name := "API URL"
    key := "api_url"
    envKey := "API_URL"
    defaultValue := some "dflt" }

/-- CLAIM C1 witness input: callbacks (never consulted: prompting disabled). -/
def c1Orc : Oracles := ⟨fun _ d => d.getD "", false, "unused"⟩

/-- CLAIM C3 witness input: a discoverable context without the referenced key. -/
def c3St : CtxState := ⟨[("havectx", [("x", Jval.str "1")])], []⟩

/-- CLAIM C3 witness input: a set override holding a broken reference. -/
def c3Cfg : ScenvConfig :=
  { prompt := some PromptMode.never
    set := some [("api_url", "@havectx:missing")] }

/-- CLAIM C3 witness input: the variable, with a configured default. -/
def c3Var : VarSpec :=
  { name := "API URL"
    key := "api_url"
    envKey := "API_URL"
    defaultValue := some "dflt" }

/-- CLAIM C3 witness input: callbacks (never consulted on this path). -/
def c3Orc : Oracles := ⟨fun _ d => d.getD "", false, "unused"⟩

/-- CLAIM C7 witness input: the target context file pre-populated with an
unrelated string key and a non-string key. -/
def c7St : CtxState :=
  ⟨[("tgt", [("other", Jval.str "old"), ("nonstr", Jval.other)])], []⟩

/-- CLAIM C7 witness input: the save target is the context "tgt". -/
def c7Cfg : ScenvConfig := { saveContextTo := some "tgt" }

/-- CLAIM C7 witness input: the saved variable. -/
def c7Var : VarSpec := { name := "V", key := "k", envKey := "K" }

/-- CLAIM C7 witness input: callbacks (never consulted on this path). -/
def c7Orc : Oracles := ⟨fun _ d => d.getD "", true, "x"⟩

/-- CLAIM C9 witness input: prompt always, shouldSavePrompt unset, named save
target. -/
def c9Cfg : ScenvConfig :=
  { context := some ["c"]
    prompt := some PromptMode.always
    saveContextTo := some "c" }

/-- CLAIM C9 witness input: the prompted variable. -/
def c9Var : VarSpec := { name := "V", key := "k", envKey := "K" }

/-- CLAIM C9 witness input: the prompt replies "x" and the save question is
answered affirmatively. -/
def c9Orc : Oracles := ⟨fun _ _ => "x", true, "unused"⟩

end Scenv

namespace Scenv

theorem alookup_aset_self {α : Type} (m : List (String × α)) (k : String) (v : α) :
    alookup (aset m k v) k = some v := by
  induction m with
  | nil => simp [aset, alookup]
  | cons p t ih =>
    by_cases h : p.1 = k
    · simp [aset, h, alookup]
    · simp [aset, h, alookup, ih]

theorem alookup_aset_ne {α : Type} (m : List (String × α)) (k k2 : String) (v : α)
    (h : k2 ≠ k) : alookup (aset m k v) k2 = alookup m k2 := by
  have hk : k ≠ k2 := fun e => h e.symm
  induction m with
  | nil => simp [aset, alookup, hk]
  | cons p t ih =>
    by_cases hp : p.1 = k
    · subst hp
      simp [aset, alookup, hk]
    · simp [aset, hp, alookup, ih]

theorem resolveRefFuel_id (st : CtxState) (fuel : Nat) (raw : String)
    (h : contextRefMatch raw = none) :
    resolveRefFuel st (fuel + 1) raw = Except.ok raw := by
  simp [resolveRefFuel, h]

theorem resolveRef_id (st : CtxState) (raw : String)
    (h : contextRefMatch raw = none) :
    resolveContextReference st raw = Except.ok raw := by
  have hm : MAX_CONTEXT_REF_DEPTH = 9 + 1 := rfl
  rw [resolveContextReference, hm, resolveRefFuel_id st 9 raw h]

theorem stepsRef_error (st : CtxState) :
    ∀ (n : Nat) (raw : String), stepsRef st n raw ≠ none →
      resolveRefFuel st n raw = Except.error depthErrMsg := by
  intro n
  induction n with
  | zero => intro raw _; rfl
  | succ n ih =>
    intro raw h
    cases hs : stepRef st raw with
    | none => rw [stepsRef, hs] at h; simp at h
    | some r =>
      have h2 : stepsRef st n r ≠ none := by
        rw [stepsRef, hs] at h; simpa using h
      cases hm : contextRefMatch raw with
      | none => rw [stepRef, hm] at hs; cases hs
      | some p =>
        obtain ⟨c, k⟩ := p
        simp only [stepRef, hm] at hs
        simp [resolveRefFuel, hm, hs, ih r h2]

end Scenv

namespace Scenv

/-- CLAIM C2 (as stated) is false on the code: with an environment-layer
replace list `["a"]` and a programmatic-layer add list `["b"]`, `mergeContexts`
returns exactly the environment replace list `["a"]`, not `["a", "b"]` — the
programmatic add list is dropped although its precedence is above the layer
that supplied the replace. -/
theorem C2_counterexample :
    mergeContexts c2File c2Env c2Prog = ["a"] ∧
    mergeContexts c2File c2Env c2Prog ≠ ["a", "b"] := by
  refine ⟨rfl, ?_⟩
  decide

/-- CLAIM C2 (amended): whenever the programmatic layer supplies no replace
list and the environment layer supplies one, the merged effective context list
is exactly the environment replace list; add lists from every layer are
ignored. -/
theorem C2_env_replace_is_final (f e p : ScenvConfig) (r : List String)
    (hp : p.context = none) (he : e.context = some r) :
    mergeContexts f e p = r := by
  simp [mergeContexts, hp, he, Option.orElse]

/-- CLAIM C2 witness: the amended statement at the counterexample input. -/
theorem C2_witness :
    c2Prog.context = none ∧ c2Env.context = some ["a"] ∧
    mergeContexts c2File c2Env c2Prog = ["a"] :=
  ⟨rfl, rfl, C2_env_replace_is_final c2File c2Env c2Prog ["a"] rfl rfl⟩

/-- CLAIM C8: every value returned by `loadConfig` has a defined `context`
list and never carries an `addContext` field, for all combinations of file,
environment, and programmatic layer contents. -/
theorem C8_loadConfig_invariant (f e p : ScenvConfig) (cd : Option String)
    (sd : String) :
    ((loadConfig f e p cd sd).context).isSome = true ∧
    (loadConfig f e p cd sd).addContext = none := by
  unfold loadConfig
  cases cd <;> dsimp only <;> split <;> simp

/-- CLAIM C10: `resolveContextReference` returns its argument unchanged for
every string that does not match the whole-string pattern `@<context>:<key>`,
independently of the context store (so no context lookup can influence the
result). -/
theorem C10_nonref_identity (raw : String) (h : contextRefMatch raw = none)
    (st : CtxState) : resolveContextReference st raw = Except.ok raw :=
  resolveRef_id st raw h

/-- CLAIM C10 witness: a keyless `@<context>` string is returned as-is even
though a context of that name with entries exists. -/
theorem C10_witness :
    contextRefMatch "@myctx" = none ∧
    resolveContextReference ⟨[("myctx", [("k", Jval.str "v")])], []⟩ "@myctx" =
      Except.ok "@myctx" :=
  ⟨rfl, C10_nonref_identity "@myctx" rfl ⟨[("myctx", [("k", Jval.str "v")])], []⟩⟩

/-- CLAIM C4: any chain of cross-context references that still requires a
substitution after `MAX_CONTEXT_REF_DEPTH` successful steps makes resolution
terminate with the hard depth error, whose text states the bound of 10 and a
possible circular reference.  (`resolveContextReference` is a total structurally
recursive function, so resolution always terminates.) -/
theorem C4_depth_bound (st : CtxState) (raw : String)
    (h : stepsRef st MAX_CONTEXT_REF_DEPTH raw ≠ none) :
    resolveContextReference st raw = Except.error depthErrMsg ∧
    MAX_CONTEXT_REF_DEPTH = 10 ∧
    depthErrMsg =
      "Context reference resolution exceeded max depth (10): possible circular reference" :=
  ⟨stepsRef_error st MAX_CONTEXT_REF_DEPTH raw h, rfl, rfl⟩

/-- CLAIM C4 witness: the self-referential chain `@c:k → @c:k → …` errors out
with the depth message. -/
theorem C4_witness :
    resolveContextReference c4Store "@c:k" = Except.error depthErrMsg ∧
    MAX_CONTEXT_REF_DEPTH = 10 ∧
    depthErrMsg =
      "Context reference resolution exceeded max depth (10): possible circular reference" :=
  C4_depth_bound c4Store "@c:k" (by decide)

/-- CLAIM C5 is false on the code (code bug relative to the repository's own
documentation and tests): with set override `$SOME_URL` and `SOME_URL` set in
the environment, `get()` returns the literal string `$SOME_URL` — no
environment interpolation is performed anywhere in the resolution pipeline. -/
theorem C5_no_env_interpolation :
    alookup c5Env "SOME_URL" = some "https://from-env.example.com" ∧
    getValue c5Cfg c5Env ⟨[], []⟩ c5Var none c5Orc = Except.ok "$SOME_URL" :=
  ⟨rfl, rfl⟩

/-- CLAIM C6 is false on the code (code bug relative to the repository's own
documentation and tests): after an explicit `save()` the in-memory context is
still empty (while a file write did occur), and after a `get()` whose value
came from a prompt with an affirmative save decision the in-memory context is
also still empty (while the context file write occurred). -/
theorem C6_no_override_layer_update :
    save c6Cfg [] ⟨[], []⟩ c6Var none c6Orc =
      Except.ok ⟨[("default", [("mem_key", Jval.str "mem-value")])], []⟩ ∧
    (get c6bCfg [] ⟨[], []⟩ c6bVar none c6bOrc).map
        (fun r => (r.wrote, r.state.inMemory)) =
      Except.ok (some ("c", "k", "x"), []) :=
  ⟨rfl, rfl⟩

end Scenv

namespace Scenv

theorem strEntries_aset_str (o : Jobj) (k s : String) :
    alookup (strEntries (aset o k (Jval.str s))) k = some s := by
  induction o with
  | nil => simp [aset, strEntries, alookup]
  | cons p t ih =>
    obtain ⟨pk, pv⟩ := p
    by_cases hp : pk = k
    · subst hp
      simp [aset, strEntries, alookup]
    · cases pv <;> simp [aset, hp, strEntries, alookup, ih]

theorem resolveRef_broken (st : CtxState) (raw c k : String)
    (hm : contextRefMatch raw = some (c, k))
    (hl : alookup (getContext st c) k = none) :
    resolveContextReference st raw =
      Except.error (brokenRefMsg (!(getContext st c).isEmpty) c k) := by
  have h10 : MAX_CONTEXT_REF_DEPTH = 9 + 1 := rfl
  rw [resolveContextReference, h10]
  simp [resolveRefFuel, hm, hl]

theorem resolveRaw_set (cfg : ScenvConfig) (env : EnvMap) (st : CtxState)
    (key ek w : String) (hset : setLookup cfg key = some w)
    (hw : contextRefMatch w = none) :
    resolveRaw cfg env st key ek = Except.ok (some w, some ResolveSource.set) := by
  simp [resolveRaw, hset, resolveRef_id st w hw, Except.map]

theorem resolveRaw_set_err (cfg : ScenvConfig) (env : EnvMap) (st : CtxState)
    (key ek raw msg : String) (hset : setLookup cfg key = some raw)
    (hres : resolveContextReference st raw = Except.error msg) :
    resolveRaw cfg env st key ek = Except.error msg := by
  simp [resolveRaw, hset, hres, Except.map]

theorem envHit_some (cfg : ScenvConfig) (env : EnvMap) (ek w : String)
    (hie : truthy cfg.ignoreEnv = false) (he : alookup env ek = some w)
    (hne : w ≠ "") : envHit cfg env ek = some w := by
  simp [envHit, hie, he, hne]

theorem envHit_ignored (cfg : ScenvConfig) (env : EnvMap) (ek : String)
    (hie : truthy cfg.ignoreEnv = true) : envHit cfg env ek = none := by
  simp [envHit, hie]

theorem envHit_absent (cfg : ScenvConfig) (env : EnvMap) (ek : String)
    (he : alookup env ek = none) : envHit cfg env ek = none := by
  simp [envHit, he]

theorem resolveRaw_env (cfg : ScenvConfig) (env : EnvMap) (st : CtxState)
    (key ek w : String) (hset : setLookup cfg key = none)
    (he : envHit cfg env ek = some w) (hw : contextRefMatch w = none) :
    resolveRaw cfg env st key ek = Except.ok (some w, some ResolveSource.env) := by
  simp [resolveRaw, hset, he, resolveRef_id st w hw, Except.map]

theorem resolveRaw_ctx (cfg : ScenvConfig) (env : EnvMap) (st : CtxState)
    (key ek w : String) (hset : setLookup cfg key = none)
    (he : envHit cfg env ek = none) (hic : truthy cfg.ignoreContext = false)
    (hc : alookup (getMergedContextValues cfg st) key = some w)
    (hw : contextRefMatch w = none) :
    resolveRaw cfg env st key ek =
      Except.ok (some w, some ResolveSource.context) := by
  simp [resolveRaw, hset, he, hic, hc, resolveRef_id st w hw, Except.map]

theorem resolveRaw_none_ic (cfg : ScenvConfig) (env : EnvMap) (st : CtxState)
    (key ek : String) (hset : setLookup cfg key = none)
    (he : envHit cfg env ek = none) (hic : truthy cfg.ignoreContext = true) :
    resolveRaw cfg env st key ek = Except.ok (none, none) := by
  simp [resolveRaw, hset, he, hic]

theorem resolveRaw_none_ctx (cfg : ScenvConfig) (env : EnvMap) (st : CtxState)
    (key ek : String) (hset : setLookup cfg key = none)
    (he : envHit cfg env ek = none)
    (hc : alookup (getMergedContextValues cfg st) key = none) :
    resolveRaw cfg env st key ek = Except.ok (none, none) := by
  by_cases hic : truthy cfg.ignoreContext
  · simp [resolveRaw, hset, he, hic]
  · simp [resolveRaw, hset, he, hic, hc]

theorem getValue_never_raw (cfg : ScenvConfig) (env : EnvMap) (st : CtxState)
    (v : VarSpec) (orc : Oracles) (w : String)
    (src : Option ResolveSource) (rd : Option String)
    (hp : cfg.prompt = some PromptMode.never) (hval : v.validator = none)
    (hr : resolveRaw cfg env st v.key v.envKey = Except.ok (some w, src))
    (hd : resolveDefault st v.defaultValue = Except.ok rd) :
    getValue cfg env st v none orc = Except.ok w := by
  simp [getValue, get, getResolvedValue, hr, hd, shouldPrompt, hp, validate,
    hval, Except.map, Option.bind, Option.orElse]

theorem getValue_never_default (cfg : ScenvConfig) (env : EnvMap) (st : CtxState)
    (v : VarSpec) (orc : Oracles) (src : Option ResolveSource) (d0 : String)
    (hp : cfg.prompt = some PromptMode.never) (hval : v.validator = none)
    (hr : resolveRaw cfg env st v.key v.envKey = Except.ok (none, src))
    (hd : resolveDefault st v.defaultValue = Except.ok (some d0)) :
    getValue cfg env st v none orc = Except.ok d0 := by
  simp [getValue, get, getResolvedValue, hr, hd, shouldPrompt, hp, validate,
    hval, Except.map, Option.bind, Option.orElse]

theorem getResolvedValue_never (cfg : ScenvConfig) (env : EnvMap) (st : CtxState)
    (v : VarSpec) (ov : Option GetOverrides) (orc : Oracles) (o : GetOutcome)
    (hp : cfg.prompt = some PromptMode.never)
    (h : getResolvedValue cfg env st v ov orc = Except.ok o) :
    o.wasPrompted = false := by
  unfold getResolvedValue at h
  cases hr : resolveRaw cfg env st v.key v.envKey with
  | error e => rw [hr] at h; simp at h
  | ok rs =>
    rw [hr] at h
    cases hd : resolveDefault st
        ((ov.bind GetOverrides.defaultVal).orElse fun _ => v.defaultValue) with
    | error e => rw [hd] at h; simp at h
    | ok rd =>
      rw [hd] at h
      simp only [shouldPrompt, hp, Option.getD_some] at h
      cases hr1 : rs.1 with
      | some w =>
        rw [hr1] at h
        simp only [Bool.false_eq_true, if_false] at h
        injection h with h2
        subst h2
        rfl
      | none =>
        rw [hr1] at h
        simp only [Bool.false_eq_true, if_false] at h
        cases rd with
        | some d0 =>
          injection h with h2
          subst h2
          rfl
        | none => simp at h

end Scenv

namespace Scenv

/-- CLAIM C3: for every raw value matching `@<context>:<key>` where the key is
not a string entry of the (possibly empty) loaded context, resolution fails
with an error whose message embeds that context and key, and both `get()` and
`safeGet()` surface exactly that reference failure — even when the variable
has a configured default. -/
theorem C3_broken_reference (cfg : ScenvConfig) (env : EnvMap) (st : CtxState)
    (orc : Oracles) (v : VarSpec) (raw c k d : String)
    (hset : setLookup cfg v.key = some raw)
    (hm : contextRefMatch raw = some (c, k))
    (hl : alookup (getContext st c) k = none)
    (_hd : v.defaultValue = some d) :
    resolveContextReference st raw =
      Except.error (brokenRefMsg (!(getContext st c).isEmpty) c k) ∧
    get cfg env st v none orc =
      Except.error (brokenRefMsg (!(getContext st c).isEmpty) c k) ∧
    safeGet cfg env st v none orc =
      SafeResult.failure (brokenRefMsg (!(getContext st c).isEmpty) c k) ∧
    ∃ rest, brokenRefMsg (!(getContext st c).isEmpty) c k =
      "Context reference @" ++ c ++ ":" ++ k ++ rest := by
  have h1 := resolveRef_broken st raw c k hm hl
  have h2 := resolveRaw_set_err cfg env st v.key v.envKey raw _ hset h1
  have h3 : get cfg env st v none orc =
      Except.error (brokenRefMsg (!(getContext st c).isEmpty) c k) := by
    simp [get, getResolvedValue, h2]
  refine ⟨h1, h3, ?_, ⟨_, rfl⟩⟩
  simp [safeGet, h3]

/-- CLAIM C3 witness: the reference `@havectx:missing` (context found, key
absent) makes `get` error and `safeGet` fail with the identifying message,
although the variable has default "dflt". -/
theorem C3_witness :
    get c3Cfg [] c3St c3Var none c3Orc =
      Except.error (brokenRefMsg true "havectx" "missing") ∧
    safeGet c3Cfg [] c3St c3Var none c3Orc =
      SafeResult.failure (brokenRefMsg true "havectx" "missing") :=
  have h := C3_broken_reference c3Cfg [] c3St c3Orc c3Var "@havectx:missing"
    "havectx" "missing" "dflt" rfl rfl rfl rfl
  ⟨h.2.1, h.2.2.1⟩

/-- CLAIM C7: `save(v)` with a named (non-"ask", nonempty) save target writes
the key into that context file; a fresh load of the context then yields `v`
for the key, and the written file is the previous parsed object with just that
key set — every other key (string-valued or not) keeps its previous value. -/
theorem C7_save_round_trip (cfg : ScenvConfig) (env : EnvMap) (st : CtxState)
    (v : VarSpec) (orc : Oracles) (val ctxName : String)
    (htgt : cfg.saveContextTo = some ctxName)
    (hask : ctxName ≠ "ask") (hne : ctxName ≠ "")
    (hval : v.validator = none) :
    save cfg env st v (some val) orc =
      Except.ok (writeToContext st ctxName v.key val) ∧
    alookup (getContext (writeToContext st ctxName v.key val) ctxName) v.key =
      some val ∧
    (∀ obj, alookup st.files ctxName = some obj →
      alookup (writeToContext st ctxName v.key val).files ctxName =
        some (aset obj v.key (Jval.str val)) ∧
      ∀ k2, k2 ≠ v.key →
        alookup (aset obj v.key (Jval.str val)) k2 = alookup obj k2) := by
  refine ⟨?_, ?_, ?_⟩
  · simp [save, validate, hval, htgt, hask, hne]
  · simp [getContext, writeToContext, alookup_aset_self, strEntries_aset_str]
  · intro obj hobj
    refine ⟨?_, fun k2 hk2 => alookup_aset_ne obj v.key k2 _ hk2⟩
    simp [writeToContext, hobj, alookup_aset_self]

/-- CLAIM C7 witness: saving "v" under key "k" into context "tgt" preserves
the unrelated string key "other" and the non-string key "nonstr", and a fresh
load yields "v" for "k". -/
theorem C7_witness :
    save c7Cfg [] c7St c7Var (some "v") c7Orc =
      Except.ok (writeToContext c7St "tgt" "k" "v") ∧
    alookup (getContext (writeToContext c7St "tgt" "k" "v") "tgt") "k" =
      some "v" ∧
    alookup (writeToContext c7St "tgt" "k" "v").files "tgt" =
      some [("other", Jval.str "old"), ("nonstr", Jval.other),
        ("k", Jval.str "v")] ∧
    alookup [("other", Jval.str "old"), ("nonstr", Jval.other),
      ("k", Jval.str "v")] "other" = some (Jval.str "old") :=
  have h := C7_save_round_trip c7Cfg [] c7St c7Var c7Orc "v" "tgt" rfl
    (by decide) (by decide) rfl
  ⟨h.1, h.2.1, (h.2.2 _ rfl).1, rfl⟩

end Scenv

namespace Scenv

/-- CLAIM C9: when `shouldSavePrompt` is unset, the effective post-prompt save
policy is "ask" — after a prompted `get()` the `onAskWhetherToSave` callback is
invoked and a context write happens exactly on an affirmative reply — except
that with prompt mode "never" nothing is asked or written (no prompt can occur
and the fallback policy is "never"). -/
theorem C9_default_save_policy (cfg : ScenvConfig) (env : EnvMap) (st : CtxState)
    (v : VarSpec) (ov : Option GetOverrides) (orc : Oracles)
    (hs : cfg.shouldSavePrompt = none) :
    (cfg.prompt = some PromptMode.never →
      ∀ r, get cfg env st v ov orc = Except.ok r →
        r.asked = false ∧ r.wrote = none) ∧
    (cfg.prompt ≠ some PromptMode.never →
      ∀ r, get cfg env st v ov orc = Except.ok r → r.wasPrompted = true →
        r.asked = true ∧ r.wrote.isSome = orc.askWhetherToSave) := by
  constructor
  · intro hp r hr
    cases hgv : getResolvedValue cfg env st v ov orc with
    | error e => simp [get, hgv] at hr
    | ok o =>
      have hwp : o.wasPrompted = false :=
        getResolvedValue_never cfg env st v ov orc o hp hgv
      cases hval : validate v o.value with
      | error e => simp [get, hgv, hval] at hr
      | ok final =>
        simp only [get, hgv, hval, hwp, Bool.false_eq_true, if_false,
          Except.ok.injEq] at hr
        subst hr
        exact ⟨rfl, rfl⟩
  · intro hp r hr hwp
    cases hgv : getResolvedValue cfg env st v ov orc with
    | error e => simp [get, hgv] at hr
    | ok o =>
      cases hval : validate v o.value with
      | error e => simp [get, hgv, hval] at hr
      | ok final =>
        cases hop : o.wasPrompted with
        | false =>
          simp only [get, hgv, hval, hop, Bool.false_eq_true, if_false,
            Except.ok.injEq] at hr
          subst hr
          simp at hwp
        | true =>
          simp only [get, hgv, hval, hop, if_true, hs, Option.getD_none,
            if_neg hp] at hr
          cases has : orc.askWhetherToSave with
          | false =>
            rw [if_neg (by decide : ¬(SaveMode.ask = SaveMode.never))] at hr
            simp only [has, reduceIte, Bool.false_eq_true, if_false,
              Except.ok.injEq] at hr
            subst hr
            exact ⟨rfl, rfl⟩
          | true =>
            rw [if_neg (by decide : ¬(SaveMode.ask = SaveMode.never))] at hr
            simp only [has, reduceIte, if_true, Except.ok.injEq] at hr
            subst hr
            exact ⟨rfl, rfl⟩

/-- CLAIM C9 witness: prompt mode "always", `shouldSavePrompt` unset,
affirmative reply: the ask happened and the write occurred. -/
theorem C9_witness :
    ∃ r, get c9Cfg [] ⟨[], []⟩ c9Var none c9Orc = Except.ok r ∧
      r.asked = true ∧ r.wrote.isSome = c9Orc.askWhetherToSave :=
  have h := (C9_default_save_policy c9Cfg [] ⟨[], []⟩ c9Var none c9Orc rfl).2
    (by decide) ⟨"x", none, false, true, true, some ("c", "k", "x"),
      ⟨[("c", [("k", Jval.str "x")])], []⟩⟩ rfl rfl
  ⟨_, rfl, h⟩

end Scenv

namespace Scenv

/-- CLAIM C1: with the storage key populated in all four sources (set
override, environment, merged context, configured default; all plain
non-reference strings) and prompting disabled, `get()` returns the set
override; with the override removed it returns the environment value; with the
environment also removed (or `ignoreEnv` set) it returns the merged-context
value; with the context value also removed (or `ignoreContext` set) it returns
the default. -/
theorem C1_precedence (cfg : ScenvConfig) (env : EnvMap) (st : CtxState)
    (v : VarSpec) (orc : Oracles) (v1 v2 v3 v4 : String)
    (hp : cfg.prompt = some PromptMode.never)
    (hval : v.validator = none)
    (hd : v.defaultValue = some v4) (hm4 : contextRefMatch v4 = none)
    (hset : setLookup cfg v.key = some v1) (hm1 : contextRefMatch v1 = none)
    (hie : truthy cfg.ignoreEnv = false)
    (henv : alookup env v.envKey = some v2) (h2ne : v2 ≠ "")
    (hm2 : contextRefMatch v2 = none)
    (hic : truthy cfg.ignoreContext = false)
    (hctx : alookup (getMergedContextValues cfg st) v.key = some v3)
    (hm3 : contextRefMatch v3 = none) :
    getValue cfg env st v none orc = Except.ok v1 ∧
    getValue { cfg with set := none } env st v none orc = Except.ok v2 ∧
    getValue { cfg with set := none, ignoreEnv := some true } env st v none orc =
      Except.ok v3 ∧
    (∀ env2 : EnvMap, alookup env2 v.envKey = none →
      getValue { cfg with set := none } env2 st v none orc = Except.ok v3) ∧
    getValue
      { cfg with set := none, ignoreEnv := some true, ignoreContext := some true }
      env st v none orc = Except.ok v4 ∧
    (∀ st2 : CtxState,
      alookup
        (getMergedContextValues
          { cfg with set := none, ignoreEnv := some true } st2) v.key = none →
      getValue { cfg with set := none, ignoreEnv := some true } env st2 v none
        orc = Except.ok v4) := by
  have hrd : ∀ stx : CtxState, resolveDefault stx v.defaultValue =
      Except.ok (some v4) := by
    intro stx
    rw [hd]
    simp [resolveDefault, resolveRef_id stx v4 hm4, Except.map]
  refine ⟨?_, ?_, ?_, ?_, ?_, ?_⟩
  · exact getValue_never_raw cfg env st v orc v1 (some ResolveSource.set)
      (some v4) hp hval
      (resolveRaw_set cfg env st v.key v.envKey v1 hset hm1) (hrd st)
  · exact getValue_never_raw _ env st v orc v2 (some ResolveSource.env)
      (some v4) hp hval
      (resolveRaw_env _ env st v.key v.envKey v2 rfl
        (envHit_some _ env v.envKey v2 hie henv h2ne) hm2) (hrd st)
  · exact getValue_never_raw _ env st v orc v3 (some ResolveSource.context)
      (some v4) hp hval
      (resolveRaw_ctx _ env st v.key v.envKey v3 rfl
        (envHit_ignored _ env v.envKey rfl) hic hctx hm3) (hrd st)
  · intro env2 he2
    exact getValue_never_raw _ env2 st v orc v3 (some ResolveSource.context)
      (some v4) hp hval
      (resolveRaw_ctx _ env2 st v.key v.envKey v3 rfl
        (envHit_absent _ env2 v.envKey he2) hic hctx hm3) (hrd st)
  · exact getValue_never_default _ env st v orc none v4 hp hval
      (resolveRaw_none_ic _ env st v.key v.envKey rfl
        (envHit_ignored _ env v.envKey rfl) rfl) (hrd st)
  · intro st2 hc2
    exact getValue_never_default _ env st2 v orc none v4 hp hval
      (resolveRaw_none_ctx _ env st2 v.key v.envKey rfl
        (envHit_ignored _ env v.envKey rfl) hc2) (hrd st2)

/-- CLAIM C1 witness: with "setv"/"envv"/"ctxv"/"dflt" populating the four
sources, the resolution waterfall falls through in order. -/
theorem C1_witness :
    getValue c1Cfg c1Env c1St c1Var none c1Orc = Except.ok "setv" ∧
    getValue { c1Cfg with set := none } c1Env c1St c1Var none c1Orc =
      Except.ok "envv" ∧
    getValue { c1Cfg with set := none, ignoreEnv := some true } c1Env c1St
      c1Var none c1Orc = Except.ok "ctxv" ∧
    getValue
      { c1Cfg with set := none, ignoreEnv := some true, ignoreContext := some true }
      c1Env c1St c1Var none c1Orc = Except.ok "dflt" :=
  have h := C1_precedence c1Cfg c1Env c1St c1Var c1Orc "setv" "envv" "ctxv"
    "dflt" rfl rfl rfl rfl rfl rfl rfl rfl (by decide) rfl rfl rfl rfl
  ⟨h.1, h.2.1, h.2.2.1, h.2.2.2.2.1⟩

end Scenv
